import Mathlib

/-!
Shallow embedding of `src/whatsapp/utils.ts` (JID / E.164 identifier
resolution).  External collaborators (the filesystem, `normalizeE164`,
`resolveUserPath`, `resolveOAuthDir`, `CONFIG_DIR`) are modelled as fields of
an `Env` record; functions that can throw in the source are `Option`-valued
(`none` means the call threw / the read failed).  Logging collaborators
(`logVerbose`, `shouldLogVerbose`) never affect a return value and are not
modelled.
-/

/-- Parsed JSON value found in a reverse-mapping file.  The source does
`JSON.parse(data) as string | number | null`; JSON numbers appearing in a
mapping file are modelled as integers. -/
inductive JsonVal where
  | jnull
  | jstr (s : String)
  | jnum (n : Int)
  deriving DecidableEq

/-- The JavaScript coercion `String(phone)` applied after the `null`/
`undefined` check: `none` exactly when the parsed value was JSON `null`. -/
def JsonVal.coerce : JsonVal → Option String
  | .jnull => none
  | .jstr s => some s
  | .jnum n => some (toString n)

/-- Environment of external collaborators.
* `fs path` — the result of `fs.readFileSync(path, "utf8")` followed by
  `JSON.parse`: `none` when the read or the parse throws, otherwise the
  parsed JSON value.
* `norm s` — `normalizeE164(s)`: `none` when it throws (invalid number).
* `resolveUserPath` — the config collaborator's path resolver (total).
* `oauthDir` — the result of `resolveOAuthDir()`; `none` for a falsy result.
* `configDir` — `CONFIG_DIR`. -/
structure Env where
  fs : String → Option JsonVal
  norm : String → Option String
  resolveUserPath : String → String
  oauthDir : Option String
  configDir : String

/-- Node's `path.join(a, b)` for the uses in this module. -/
def pathJoin (a b : String) : String := a ++ "/" ++ b

/-- JavaScript truthiness of a `string | null | undefined` value:
`null`, `undefined` and the empty string are falsy. -/
def jsTruthy : Option String → Bool
  | none => false
  | some s => s ≠ ""

/-- Options record `JidToE164Options` from the source.  `logMissing` only
controls logging and never influences a return value. -/
structure JidToE164Options where
  authDir : Option String := none
  lidMappingDirs : Option (List String) := none
  logMissing : Option Bool := none

/-- Options for `resolveJidToE164`: `JidToE164Options & { lidLookup?: LidLookup }`.
The nested optional method `lidLookup?.getPNForLID` is collapsed into a single
optional function; `Except Unit` models a throwing / rejecting promise and the
inner `Option String` the `string | null` result. -/
structure ResolveOptions extends JidToE164Options where
  lidLookup : Option (String → Except Unit (Option String)) := none

/-- Base options seen by `jidToE164` when `resolveJidToE164` forwards its
option object. -/
def baseOf (opts : Option ResolveOptions) : Option JidToE164Options :=
  opts.map ResolveOptions.toJidToE164Options

/-- One step of the JS `Set`-building closure `addDir`: skip falsy
directories, resolve, and insert unless already present (a JS `Set` keeps
the first insertion position). -/
def addDir (env : Env) (dirs : List String) (dir : Option String) : List String :=
  match dir with
  | none => dirs
  | some d =>
    if d = "" then dirs
    else
      let r := env.resolveUserPath d
      if dirs.contains r then dirs else dirs ++ [r]

/-- `resolveLidMappingDirs(opts)` from the source: auth dir, then extra
dirs, then the OAuth dir, then `path.join(CONFIG_DIR, "credentials")`,
deduplicated by resolved path with first occurrence winning. -/
def resolveLidMappingDirs (env : Env) (opts : Option JidToE164Options) : List String :=
  let d1 := addDir env [] (opts.bind (·.authDir))
  let d2 := ((opts.bind (·.lidMappingDirs)).getD []).foldl
    (fun acc dir => addDir env acc (some dir)) d1
  let d3 := addDir env d2 env.oauthDir
  addDir env d3 (some (pathJoin env.configDir "credentials"))

/-- Expected reverse-mapping file name for a LID. -/
def mappingFilename (lid : String) : String :=
  "lid-mapping-" ++ lid ++ "_reverse.json"

/-- One iteration of the directory loop in `readLidReverseMapping`: read and
parse the file (any throw is caught → `none`), skip JSON `null`, and apply
`normalizeE164` — which sits inside the same `try`, so a normalization throw
is also caught and yields `none` (a miss for this directory). -/
def tryDir (env : Env) (fn : String) (dir : String) : Option String :=
  match env.fs (pathJoin dir fn) with
  | none => none
  | some v =>
    match v.coerce with
    | none => none
    | some s => env.norm s

/-- First-success-wins scan of the directory list. -/
def scanDirs (env : Env) (fn : String) : List String → Option String
  | [] => none
  | d :: rest =>
    match tryDir env fn d with
    | some p => some p
    | none => scanDirs env fn rest

/-- `readLidReverseMapping(lid, opts)` from the source. -/
def readLidReverseMapping (env : Env) (lid : String) (opts : Option JidToE164Options) :
    Option String :=
  scanDirs env (mappingFilename lid) (resolveLidMappingDirs env opts)

/-- Greedy `\d+` of the regexes: the longest leading run of ASCII digits,
paired with the remainder. -/
def takeDigits : List Char → List Char × List Char
  | [] => ([], [])
  | c :: cs =>
    if c.isDigit then
      let r := takeDigits cs
      (c :: r.1, r.2)
    else ([], c :: cs)

/-- Matcher for the anchored regexes `^(\d+)(?::\d+)?@(...)$`: `sufs` is the
list of admissible tails starting at the `@`; returns the captured digit
group.  Because a digit run cannot contain `:` or `@`, the greedy
deterministic scan is equivalent to the regex with backtracking. -/
def jidMatch (sufs : List (List Char)) (j : String) : Option (List Char) :=
  let p := takeDigits j.data
  if p.1 = [] then none
  else if p.2.head? = some ':' then
    let q := takeDigits p.2.tail
    if q.1 = [] then none
    else if sufs.contains q.2 then some p.1 else none
  else if sufs.contains p.2 then some p.1 else none

/-- Tails of the direct-phone pattern `@(s\.whatsapp\.net|hosted)$`. -/
def directSufs : List (List Char) := ["@s.whatsapp.net".data, "@hosted".data]

/-- Tails of the LID pattern `@(lid|hosted\.lid)$`. -/
def lidSufs : List (List Char) := ["@lid".data, "@hosted.lid".data]

/-- `jidToE164(jid, opts)` from the source: direct-phone match returns
`+digits`; LID match consults the reverse mapping (the JS guard
`if (phone)` rejects an empty string); anything else is `null`. -/
def jidToE164 (env : Env) (jid : String) (opts : Option JidToE164Options) :
    Option String :=
  match jidMatch directSufs jid with
  | some d => some ("+" ++ String.mk d)
  | none =>
    match jidMatch lidSufs jid with
    | some l =>
      match readLidReverseMapping env (String.mk l) opts with
      | some phone => if phone = "" then none else some phone
      | none => none
    | none => none

/-- The unanchored-at-start test `/(@lid|@hosted\.lid)$/.test(jid)`:
the JID ends with one of the two LID tails. -/
def hasLidSuffix (j : String) : Bool :=
  "@lid".data.isSuffixOf j.data || "@hosted.lid".data.isSuffixOf j.data

/-- `resolveJidToE164(jid, opts)` from the source, instrumented: the second
component records whether `getPNForLID` was invoked.  `Except.error` on the
lookup models a thrown / rejected promise, absorbed by the `catch`. -/
def resolveJidToE164R (env : Env) (jid : Option String) (opts : Option ResolveOptions) :
    Option String × Bool :=
  match jid with
  | none => (none, false)
  | some j =>
    if j = "" then (none, false)
    else
      let direct := jidToE164 env j (baseOf opts)
      if jsTruthy direct then (direct, false)
      else if hasLidSuffix j then
        match opts.bind (·.lidLookup) with
        | none => (none, false)
        | some f =>
          match f j with
          | .error _ => (none, true)
          | .ok pnJid =>
            if jsTruthy pnJid then
              match pnJid with
              | some p => (jidToE164 env p (baseOf opts), true)
              | none => (none, true)
            else (none, true)
      else (none, false)

/-- The value returned to the caller of `resolveJidToE164`. -/
def resolveJidToE164 (env : Env) (jid : Option String) (opts : Option ResolveOptions) :
    Option String :=
  (resolveJidToE164R env jid opts).1

/-- The JavaScript `String.prototype.trim` whitespace test, restricted to the
ASCII whitespace characters. -/
def isJsSpace (c : Char) : Bool :=
  c = ' ' || c = '\t' || c = '\n' || c = '\r' || c = '\x0b' || c = '\x0c'

/-- Trim leading and trailing whitespace from a character list. -/
def trimChars (l : List Char) : List Char :=
  ((l.dropWhile isJsSpace).reverse.dropWhile isJsSpace).reverse

/-- Characters of the platform prefix `"whatsapp:"`. -/
def waPfx : List Char := "whatsapp:".data

/-- `number.replace(/^whatsapp:/, "")`: drop the prefix when (and only when)
it sits at the very start of the string. -/
def stripWA (l : List Char) : List Char :=
  if waPfx.isPrefixOf l then l.drop waPfx.length else l

/-- `toWhatsappJid(number)` from the source: strip the prefix, trim, pass
through anything already containing `@`, otherwise normalize (a throw
propagates, hence `Option`), keep the digits, and append the server suffix. -/
def toWhatsappJid (env : Env) (number : String) : Option String :=
  let w := trimChars (stripWA number.data)
  if w.contains '@' then some (String.mk w)
  else
    (env.norm (String.mk w)).map fun e164 =>
      String.mk (e164.data.filter Char.isDigit) ++ "@s.whatsapp.net"

/-! ## Specification-side view of the directory set (for the refinement
claim about `resolveLidMappingDirs`) -/

/-- Singleton-or-empty view of an optional entry. -/
def optList : Option String → List String
  | none => []
  | some s => [s]

/-- Keep the first occurrence of every element, preserving order
(accumulator-passing form). -/
def dedupGo (acc : List String) : List String → List String
  | [] => acc
  | x :: xs => if acc.contains x then dedupGo acc xs else dedupGo (acc ++ [x]) xs

/-- Keep the first occurrence of every element, preserving order. -/
def dedupKeepFirst (l : List String) : List String := dedupGo [] l

/-- Candidate directories in the priority order stated by the spec: caller
auth directory, caller extra directories, OAuth directory, default
credentials directory. -/
def specCandidates (env : Env) (opts : Option JidToE164Options) : List String :=
  optList (opts.bind (·.authDir)) ++ (opts.bind (·.lidMappingDirs)).getD []
    ++ optList env.oauthDir ++ [pathJoin env.configDir "credentials"]

/-- Directory set as the spec words it: collect the candidates in priority
order, drop falsy entries, resolve each to an absolute path, and deduplicate
with the first occurrence winning. -/
def resolveLidMappingDirsSpec (env : Env) (opts : Option JidToE164Options) : List String :=
  dedupKeepFirst (((specCandidates env opts).filter (· ≠ "")).map env.resolveUserPath)

/-! ## Basic helper lemmas -/

theorem strData_append (a b : String) : (a ++ b).data = a.data ++ b.data := by
  cases a; cases b; rfl

theorem strExt {a b : String} (h : a.data = b.data) : a = b := by
  cases a; cases b; exact congrArg String.mk h

theorem pathJoin_ne_empty (a b : String) : pathJoin a b ≠ "" := by
  intro h
  have hd : (pathJoin a b).data = [] := by rw [h]
  rw [pathJoin, strData_append, strData_append] at hd
  rcases List.append_eq_nil.mp hd with ⟨hd1, hd2⟩
  rcases List.append_eq_nil.mp hd1 with ⟨-, hslash⟩
  exact List.cons_ne_nil _ _ hslash

theorem addDir_eq_dedupGo (env : Env) (acc : List String) (o : Option String) :
    addDir env acc o = dedupGo acc ((optList o).filter (· ≠ "") |>.map env.resolveUserPath) := by
  cases o with
  | none => rfl
  | some d =>
    by_cases hd : d = ""
    · simp [addDir, optList, hd, dedupGo]
    · by_cases hm : env.resolveUserPath d ∈ acc
      · simp [addDir, optList, hd, dedupGo, hm]
      · simp [addDir, optList, hd, dedupGo, hm]

theorem foldl_addDir_eq_dedupGo (env : Env) (l : List String) (acc : List String) :
    l.foldl (fun a d => addDir env a (some d)) acc
      = dedupGo acc ((l.filter (· ≠ "")).map env.resolveUserPath) := by
  induction l generalizing acc with
  | nil => rfl
  | cons d rest ih =>
    by_cases hd : d = ""
    · have h1 : addDir env acc (some d) = acc := by simp [addDir, hd]
      simp only [List.foldl_cons, h1, ih]
      simp [hd]
    · by_cases hm : env.resolveUserPath d ∈ acc
      · have h1 : addDir env acc (some d) = acc := by simp [addDir, hd, hm]
        simp only [List.foldl_cons, h1, ih]
        simp [hd, dedupGo, hm]
      · have h1 : addDir env acc (some d) = acc ++ [env.resolveUserPath d] := by
          simp [addDir, hd, hm]
        simp only [List.foldl_cons, h1, ih]
        simp [hd, dedupGo, hm]

theorem dedupGo_append (acc l1 l2 : List String) :
    dedupGo acc (l1 ++ l2) = dedupGo (dedupGo acc l1) l2 := by
  induction l1 generalizing acc with
  | nil => rfl
  | cons x xs ih =>
    by_cases hm : x ∈ acc
    · simp [dedupGo, hm, ih]
    · simp [dedupGo, hm, ih]

theorem mem_addDir_self (env : Env) (dirs : List String) (d : String) (hd : d ≠ "") :
    env.resolveUserPath d ∈ addDir env dirs (some d) := by
  by_cases hm : env.resolveUserPath d ∈ dirs
  · simp [addDir, hd, hm]
  · simp [addDir, hd, hm]

theorem scanDirs_cons_none (env : Env) (fn d : String) (l : List String)
    (h : tryDir env fn d = none) :
    scanDirs env fn (d :: l) = scanDirs env fn l := by
  simp [scanDirs, h]

theorem scanDirs_append_misses (env : Env) (fn : String) (pre l : List String)
    (h : ∀ d' ∈ pre, tryDir env fn d' = none) :
    scanDirs env fn (pre ++ l) = scanDirs env fn l := by
  induction pre with
  | nil => rfl
  | cons d rest ih =>
    rw [List.cons_append, scanDirs_cons_none env fn d _ (h d (List.mem_cons_self d rest))]
    exact ih fun d' hd' => h d' (List.mem_cons_of_mem d hd')

/-! ## Claim theorems -/

/-- Claim C7: for every combination of optional caller auth directory and
caller extra directories, `resolveLidMappingDirs` returns exactly the list
built in priority order — caller auth directory, caller extra directories,
OAuth directory, default credentials directory — deduplicated by resolved
path with the first occurrence winning (the spec-side formulation
`resolveLidMappingDirsSpec`). -/
theorem c7_resolve_dirs_spec_equiv (env : Env) (opts : Option JidToE164Options) :
    resolveLidMappingDirs env opts = resolveLidMappingDirsSpec env opts := by
  show addDir env (addDir env (((opts.bind (·.lidMappingDirs)).getD []).foldl
      (fun acc dir => addDir env acc (some dir)) (addDir env [] (opts.bind (·.authDir))))
      env.oauthDir) (some (pathJoin env.configDir "credentials"))
    = resolveLidMappingDirsSpec env opts
  rw [addDir_eq_dedupGo]
  rw [addDir_eq_dedupGo]
  rw [foldl_addDir_eq_dedupGo]
  rw [addDir_eq_dedupGo]
  simp only [resolveLidMappingDirsSpec, dedupKeepFirst, specCandidates]
  rw [List.filter_append, List.filter_append, List.filter_append,
    List.map_append, List.map_append, List.map_append,
    dedupGo_append, dedupGo_append, dedupGo_append]
  rfl

/-- Claim C10: whatever the options, the directory set contains the resolved
default credentials directory (`CONFIG_DIR` joined with `"credentials"`), so
it is never empty. -/
theorem c10_default_dir_always_present (env : Env) (opts : Option JidToE164Options) :
    env.resolveUserPath (pathJoin env.configDir "credentials") ∈ resolveLidMappingDirs env opts
      ∧ resolveLidMappingDirs env opts ≠ [] := by
  have hmem : env.resolveUserPath (pathJoin env.configDir "credentials")
      ∈ resolveLidMappingDirs env opts :=
    mem_addDir_self env _ _ (pathJoin_ne_empty env.configDir "credentials")
  exact ⟨hmem, List.ne_nil_of_mem hmem⟩

/-- Claim C1 (amended): across the resolved directories in order, the first
directory whose mapping file is successfully read, parses to a non-null JSON
scalar, and whose coerced scalar the external normalizer accepts, wins: that
normalized value is returned with no further directories tried; every earlier
directory must have been a miss (unreadable file, invalid JSON, JSON null, or
a scalar the normalizer rejects).  In particular, with two directories both
holding an accepted mapping for the same LID, the earlier-priority directory
wins. -/
theorem c1_first_success_wins (env : Env) (lid : String) (opts : Option JidToE164Options)
    (pre post : List String) (d : String) (v : JsonVal) (s p : String)
    (hdirs : resolveLidMappingDirs env opts = pre ++ d :: post)
    (hmiss : ∀ d' ∈ pre, tryDir env (mappingFilename lid) d' = none)
    (hread : env.fs (pathJoin d (mappingFilename lid)) = some v)
    (hscalar : v.coerce = some s)
    (hnorm : env.norm s = some p) :
    readLidReverseMapping env lid opts = some p := by
  rw [readLidReverseMapping, hdirs, scanDirs_append_misses env _ pre _ hmiss]
  have htry : tryDir env (mappingFilename lid) d = some p := by
    simp [tryDir, hread, hscalar, hnorm]
  simp [scanDirs, htry]

/-- Concrete environment refuting claim C1 as stated: the auth directory
holds the non-null scalar `"x"`, which the normalizer rejects. -/
def envC1 : Env :=
  { fs := fun q =>
      if q = "d1/lid-mapping-9_reverse.json" then some (.jstr "x")
      else if q = "c/credentials/lid-mapping-9_reverse.json" then some (.jstr "22")
      else none
    norm := fun s => if s = "22" then some "+22" else none
    resolveUserPath := id
    oauthDir := none
    configDir := "c" }

/-- Options used with `envC1`. -/
def optsC1 : Option JidToE164Options := some { authDir := some "d1" }

/-- Claim C1, counterexample to the claim as stated: the first directory
(`"d1"`) yields a successfully-read, successfully-parsed, non-null scalar
(`"x"`), yet its value is not returned — `normalizeE164` throws on it inside
the `try`, the directory is skipped, and the later directory's value `"+22"`
is returned instead.  So a non-null scalar does not always win and further
directories are tried. -/
theorem c1_counterexample :
    resolveLidMappingDirs envC1 optsC1 = ["d1", "c/credentials"]
      ∧ (envC1.fs (pathJoin "d1" (mappingFilename "9"))).bind JsonVal.coerce = some "x"
      ∧ readLidReverseMapping envC1 "9" optsC1 = some "+22"
      ∧ ∀ p, readLidReverseMapping envC1 "9" optsC1 = some p → envC1.norm "x" ≠ some p := by
  refine ⟨by decide, by decide, by decide, ?_⟩
  intro p hp
  have : p = "+22" := by
    have h22 : readLidReverseMapping envC1 "9" optsC1 = some "+22" := by decide
    rw [h22] at hp
    exact (Option.some_injective _ hp.symm)
  rw [this]
  decide

/-- Witness for `c1_first_success_wins`: the auth directory is a miss (its
scalar is rejected by the normalizer), the default credentials directory
holds the accepted scalar `"22"`, and the lookup returns `"+22"`. -/
theorem c1_witness :
    resolveLidMappingDirs envC1 optsC1 = ["d1"] ++ "c/credentials" :: []
      ∧ (∀ d' ∈ ["d1"], tryDir envC1 (mappingFilename "9") d' = none)
      ∧ envC1.fs (pathJoin "c/credentials" (mappingFilename "9")) = some (.jstr "22")
      ∧ JsonVal.coerce (.jstr "22") = some "22"
      ∧ envC1.norm "22" = some "+22"
      ∧ readLidReverseMapping envC1 "9" optsC1 = some "+22" :=
  ⟨by decide, by decide, by decide, by decide, by decide,
    c1_first_success_wins envC1 "9" optsC1 ["d1"] [] "c/credentials" (.jstr "22") "22" "+22"
      (by decide) (by decide) (by decide) (by decide) (by decide)⟩

/-- Claim C4: decode-direction calls have exactly two outcomes (a phone
number or `null`; the embedding is total, so no exception path exists), and a
directory whose mapping file is missing / unreadable / invalid JSON (`fs`
returns `none`) or contains JSON `null` is absorbed at the
`ReverseMappingStore` layer: the scan behaves exactly as if that directory
were not in the list. -/
theorem c4_bad_directory_is_miss (env : Env) (j fn dir : String)
    (opts : Option JidToE164Options) (pre post : List String)
    (hbad : env.fs (pathJoin dir fn) = none ∨ env.fs (pathJoin dir fn) = some JsonVal.jnull) :
    (jidToE164 env j opts = none ∨ ∃ p, jidToE164 env j opts = some p)
      ∧ scanDirs env fn (pre ++ dir :: post) = scanDirs env fn (pre ++ post) := by
  constructor
  · cases h : jidToE164 env j opts with
    | none => exact Or.inl rfl
    | some p => exact Or.inr ⟨p, rfl⟩
  · have htry : tryDir env fn dir = none := by
      rcases hbad with h | h <;> simp [tryDir, h, JsonVal.coerce]
    induction pre with
    | nil =>
      simp only [List.nil_append]
      exact scanDirs_cons_none env fn dir post htry
    | cons a rest ih =>
      rw [List.cons_append, List.cons_append]
      cases h : tryDir env fn a with
      | some p => simp [scanDirs, h]
      | none => simp [scanDirs, h, ih]

/-- Concrete environment for the C4 witness: directory `"bad"` holds a JSON
`null` mapping, directory `"good"` holds the scalar `"7"`. -/
def envC4 : Env :=
  { fs := fun q =>
      if q = "bad/f.json" then some .jnull
      else if q = "good/f.json" then some (.jstr "7")
      else none
    norm := fun s => if s = "7" then some "+7" else none
    resolveUserPath := id
    oauthDir := none
    configDir := "c" }

/-- Witness for `c4_bad_directory_is_miss`: the JSON-null directory `"bad"`
is skipped and the scan over `["bad", "good"]` equals the scan over
`["good"]`. -/
theorem c4_witness :
    (envC4.fs (pathJoin "bad" "f.json") = none
        ∨ envC4.fs (pathJoin "bad" "f.json") = some JsonVal.jnull)
      ∧ ((jidToE164 envC4 "g@g.us" none = none ∨ ∃ p, jidToE164 envC4 "g@g.us" none = some p)
        ∧ scanDirs envC4 "f.json" ([] ++ "bad" :: ["good"])
            = scanDirs envC4 "f.json" ([] ++ ["good"])) :=
  ⟨Or.inr (by decide),
    c4_bad_directory_is_miss envC4 "g@g.us" "f.json" "bad" none [] ["good"] (Or.inr (by decide))⟩

theorem strMk_data (s : String) : String.mk s.data = s := by cases s; rfl

theorem takeDigits_append (d r : List Char) (hdig : ∀ c ∈ d, c.isDigit = true)
    (hr : ∀ c cs, r = c :: cs → c.isDigit = false) :
    takeDigits (d ++ r) = (d, r) := by
  induction d with
  | nil =>
    simp only [List.nil_append]
    cases r with
    | nil => rfl
    | cons c cs =>
      have hc := hr c cs rfl
      simp [takeDigits, hc]
  | cons c d' ih =>
    have hc : c.isDigit = true := hdig c (List.mem_cons_self _ _)
    simp only [List.cons_append, takeDigits, hc, if_true]
    rw [List.append_eq, ih (fun x hx => hdig x (List.mem_cons_of_mem _ hx))]

theorem jidMatch_no_dev (sufs : List (List Char)) (dd t : List Char)
    (hd : dd ≠ []) (hdig : ∀ c ∈ dd, c.isDigit = true)
    (c : Char) (ts : List Char) (ht : t = c :: ts)
    (hcd : c.isDigit = false) (hcc : c ≠ ':')
    (hmem : sufs.contains t = true) :
    jidMatch sufs (String.mk (dd ++ t)) = some dd := by
  have hdata : (String.mk (dd ++ t)).data = dd ++ t := rfl
  have htk : takeDigits (dd ++ t) = (dd, t) := by
    refine takeDigits_append dd t hdig ?_
    intro x xs hx
    rw [ht] at hx
    obtain ⟨h1, -⟩ := List.cons.inj hx
    rw [← h1]; exact hcd
  simp only [jidMatch, hdata, htk]
  have hhead : t.head? ≠ some ':' := by
    rw [ht]; simp [hcc]
  have hmem' : t ∈ sufs := by simpa using hmem
  simp [hd, hhead, hmem']

theorem jidMatch_dev (sufs : List (List Char)) (dd ss t : List Char)
    (hd : dd ≠ []) (hdig : ∀ c ∈ dd, c.isDigit = true)
    (hs : ss ≠ []) (hsdig : ∀ c ∈ ss, c.isDigit = true)
    (c : Char) (ts : List Char) (ht : t = c :: ts)
    (hcd : c.isDigit = false)
    (hmem : sufs.contains t = true) :
    jidMatch sufs (String.mk (dd ++ ':' :: (ss ++ t))) = some dd := by
  have hdata : (String.mk (dd ++ ':' :: (ss ++ t))).data = dd ++ ':' :: (ss ++ t) := rfl
  have htk : takeDigits (dd ++ ':' :: (ss ++ t)) = (dd, ':' :: (ss ++ t)) := by
    refine takeDigits_append dd _ hdig ?_
    intro x xs hx
    obtain ⟨h1, -⟩ := List.cons.inj hx
    rw [← h1]; decide
  have htk2 : takeDigits (ss ++ t) = (ss, t) := by
    refine takeDigits_append ss t hsdig ?_
    intro x xs hx
    rw [ht] at hx
    obtain ⟨h1, -⟩ := List.cons.inj hx
    rw [← h1]; exact hcd
  simp only [jidMatch, hdata, htk, List.head?_cons, List.tail_cons, htk2]
  have hmem' : t ∈ sufs := by simpa using hmem
  simp [hd, hs, hmem']

/-- Claim C5: for every non-empty digit sequence `d` and optional non-empty
numeric device suffix `s`, `jidToE164` maps `d:s@s.whatsapp.net` and
`d@s.whatsapp.net` (and identically for `@hosted`) to `+d`, ignoring the
device suffix — for every environment and option set, with no filesystem
access. -/
theorem c5_direct_jid_decode (env : Env) (opts : Option JidToE164Options) (d s : String)
    (hd : d.data ≠ []) (hdig : ∀ c ∈ d.data, c.isDigit = true)
    (hs : s.data ≠ []) (hsdig : ∀ c ∈ s.data, c.isDigit = true) :
    jidToE164 env (d ++ ":" ++ s ++ "@s.whatsapp.net") opts = some ("+" ++ d)
      ∧ jidToE164 env (d ++ "@s.whatsapp.net") opts = some ("+" ++ d)
      ∧ jidToE164 env (d ++ ":" ++ s ++ "@hosted") opts = some ("+" ++ d)
      ∧ jidToE164 env (d ++ "@hosted") opts = some ("+" ++ d) := by
  refine ⟨?_, ?_, ?_, ?_⟩
  · have hJ : d ++ ":" ++ s ++ "@s.whatsapp.net"
        = String.mk (d.data ++ ':' :: (s.data ++ "@s.whatsapp.net".data)) := by
      apply strExt
      simp [strData_append]
    rw [hJ]
    have hm := jidMatch_dev directSufs d.data s.data "@s.whatsapp.net".data hd hdig hs hsdig
      '@' "s.whatsapp.net".data rfl (by decide) (by decide)
    simp only [jidToE164, hm]
  · have hJ : d ++ "@s.whatsapp.net" = String.mk (d.data ++ "@s.whatsapp.net".data) := by
      apply strExt
      simp [strData_append]
    rw [hJ]
    have hm := jidMatch_no_dev directSufs d.data "@s.whatsapp.net".data hd hdig
      '@' "s.whatsapp.net".data rfl (by decide) (by decide) (by decide)
    simp only [jidToE164, hm]
  · have hJ : d ++ ":" ++ s ++ "@hosted"
        = String.mk (d.data ++ ':' :: (s.data ++ "@hosted".data)) := by
      apply strExt
      simp [strData_append]
    rw [hJ]
    have hm := jidMatch_dev directSufs d.data s.data "@hosted".data hd hdig hs hsdig
      '@' "hosted".data rfl (by decide) (by decide)
    simp only [jidToE164, hm]
  · have hJ : d ++ "@hosted" = String.mk (d.data ++ "@hosted".data) := by
      apply strExt
      simp [strData_append]
    rw [hJ]
    have hm := jidMatch_no_dev directSufs d.data "@hosted".data hd hdig
      '@' "hosted".data rfl (by decide) (by decide) (by decide)
    simp only [jidToE164, hm]

/-- Witness for `c5_direct_jid_decode` at concrete inputs. -/
theorem c5_witness :
    ("1234" : String).data ≠ [] ∧ (∀ c ∈ ("1234" : String).data, c.isDigit = true)
      ∧ ("7" : String).data ≠ [] ∧ (∀ c ∈ ("7" : String).data, c.isDigit = true)
      ∧ jidToE164 envC1 ("1234" ++ ":" ++ "7" ++ "@s.whatsapp.net") none = some ("+" ++ "1234")
      ∧ jidToE164 envC1 ("1234" ++ "@hosted") none = some ("+" ++ "1234") := by
  refine ⟨by decide, by decide, by decide, by decide, ?_, ?_⟩
  · exact (c5_direct_jid_decode envC1 none "1234" "7" (by decide) (by decide) (by decide)
      (by decide)).1
  · exact (c5_direct_jid_decode envC1 none "1234" "7" (by decide) (by decide) (by decide)
      (by decide)).2.2.2

/-- Claim C8: `resolveJidToE164` returns `null` without ever invoking the
injected lookup capability when (a) the input JID is absent or empty, (b) the
direct decode misses and the JID has no LID suffix, or (c) the JID is
LID-suffixed but no capability was supplied — for every capability that could
have been supplied.  The second component of `resolveJidToE164R` records
whether the capability was invoked. -/
theorem c8_no_lookup_paths (env : Env) (opts : Option ResolveOptions) :
    resolveJidToE164R env none opts = (none, false)
      ∧ resolveJidToE164R env (some "") opts = (none, false)
      ∧ (∀ j, j ≠ "" → jidToE164 env j (baseOf opts) = none → hasLidSuffix j = false →
          resolveJidToE164R env (some j) opts = (none, false))
      ∧ (∀ j, j ≠ "" → jidToE164 env j (baseOf opts) = none → hasLidSuffix j = true →
          opts.bind (·.lidLookup) = none →
          resolveJidToE164R env (some j) opts = (none, false)) := by
  refine ⟨rfl, rfl, ?_, ?_⟩
  · intro j hj hdec hsuf
    simp [resolveJidToE164R, hj, hdec, jsTruthy, hsuf]
  · intro j hj hdec hsuf hcap
    simp [resolveJidToE164R, hj, hdec, jsTruthy, hsuf, hcap]

/-- Claim C2: for a LID-form JID with no local reverse mapping (direct decode
misses) and an injected lookup capability returning a truthy phone-bearing
JID, `resolveJidToE164` returns exactly the synchronous decode
(`jidToE164`) of that returned JID — which may itself be `none`. -/
theorem c2_lookup_fallback_decodes (env : Env) (opts : Option ResolveOptions)
    (j p : String) (f : String → Except Unit (Option String))
    (hj : j ≠ "") (hdec : jidToE164 env j (baseOf opts) = none)
    (hsuf : hasLidSuffix j = true)
    (hcap : opts.bind (·.lidLookup) = some f)
    (hret : f j = .ok (some p)) (hp : p ≠ "") :
    resolveJidToE164 env (some j) opts = jidToE164 env p (baseOf opts) := by
  simp [resolveJidToE164, resolveJidToE164R, hj, hdec, jsTruthy, hsuf, hcap, hret, hp]

/-- Claim C3: with an injected lookup capability that always throws /
rejects, whenever the capability is invoked `resolveJidToE164` returns
`null`, and the caller-visible result is identical to running with no
capability at all — the failure is absorbed, never propagated (the
embedding is total, so no exception can escape). -/
theorem c3_throwing_lookup_absorbed (env : Env) (jid : Option String)
    (opts : Option ResolveOptions) (f : String → Except Unit (Option String))
    (hcap : opts.bind (·.lidLookup) = some f)
    (hthrow : ∀ s, f s = .error ()) :
    ((resolveJidToE164R env jid opts).2 = true → (resolveJidToE164R env jid opts).1 = none)
      ∧ resolveJidToE164 env jid opts
          = resolveJidToE164 env jid (opts.map fun o => { o with lidLookup := none }) := by
  rcases opts with _ | o
  · simp at hcap
  · have hcap' : o.lidLookup = some f := by simpa using hcap
    rcases jid with _ | j
    · exact ⟨fun h => rfl, rfl⟩
    · by_cases hj : j = ""
      · subst hj
        exact ⟨fun h => rfl, rfl⟩
      · by_cases hdir : jsTruthy (jidToE164 env j (some o.toJidToE164Options)) = true
        · constructor
          · intro h
            simp [resolveJidToE164R, baseOf, hj, hdir] at h
          · simp [resolveJidToE164, resolveJidToE164R, hj, hdir, baseOf]
        · by_cases hsuf : hasLidSuffix j = true
          · constructor
            · intro h
              simp [resolveJidToE164R, baseOf, hj, hdir, hsuf, hcap', hthrow j]
            · simp [resolveJidToE164, resolveJidToE164R, hj, hdir, hsuf, hcap', hthrow j, baseOf]
          · constructor
            · intro h
              simp [resolveJidToE164R, baseOf, hj, hdir, hsuf] at h
            · simp [resolveJidToE164, resolveJidToE164R, hj, hdir, hsuf, baseOf]

/-- Trivial environment: empty filesystem, rejecting normalizer. -/
def envT : Env :=
  { fs := fun _ => none
    norm := fun _ => none
    resolveUserPath := id
    oauthDir := none
    configDir := "cfg" }

/-- Lookup capability returning a fixed phone-bearing JID. -/
def fC2 : String → Except Unit (Option String) := fun _ => Except.ok (some "88@s.whatsapp.net")

/-- Options carrying `fC2`. -/
def optsC2 : Option ResolveOptions := some { lidLookup := some fC2 }

/-- Witness for `c2_lookup_fallback_decodes` at concrete inputs. -/
theorem c2_witness :
    ("5@lid" ≠ "" ∧ jidToE164 envT "5@lid" (baseOf optsC2) = none
      ∧ hasLidSuffix "5@lid" = true ∧ optsC2.bind (·.lidLookup) = some fC2
      ∧ fC2 "5@lid" = .ok (some "88@s.whatsapp.net") ∧ "88@s.whatsapp.net" ≠ "")
      ∧ resolveJidToE164 envT (some "5@lid") optsC2
          = jidToE164 envT "88@s.whatsapp.net" (baseOf optsC2)
      ∧ jidToE164 envT "88@s.whatsapp.net" (baseOf optsC2) = some "+88" :=
  ⟨⟨by decide, by decide, by decide, rfl, rfl, by decide⟩,
    c2_lookup_fallback_decodes envT optsC2 "5@lid" "88@s.whatsapp.net" fC2
      (by decide) (by decide) (by decide) rfl rfl (by decide),
    by decide⟩

/-- Lookup capability that always throws. -/
def fC3 : String → Except Unit (Option String) := fun _ => Except.error ()

/-- Options carrying `fC3`. -/
def optsC3 : Option ResolveOptions := some { lidLookup := some fC3 }

/-- Witness for `c3_throwing_lookup_absorbed` at concrete inputs. -/
theorem c3_witness :
    optsC3.bind (·.lidLookup) = some fC3
      ∧ (∀ s, fC3 s = Except.error ())
      ∧ (resolveJidToE164R envT (some "5@lid") optsC3).2 = true
      ∧ (resolveJidToE164R envT (some "5@lid") optsC3).1 = none
      ∧ resolveJidToE164 envT (some "5@lid") optsC3
          = resolveJidToE164 envT (some "5@lid")
              (optsC3.map fun o => { o with lidLookup := none }) :=
  ⟨rfl, fun _ => rfl, rfl,
    (c3_throwing_lookup_absorbed envT (some "5@lid") optsC3 fC3 rfl fun _ => rfl).1 rfl,
    (c3_throwing_lookup_absorbed envT (some "5@lid") optsC3 fC3 rfl fun _ => rfl).2⟩

/-- Options with a capability present (for the C8 paths that must not call it). -/
def optsC8 : Option ResolveOptions := some { lidLookup := some fC2 }

/-- Options with no capability. -/
def optsC8c : Option ResolveOptions := some { lidLookup := none }

/-- Witness for `c8_no_lookup_paths` at concrete inputs, exercising all
four no-lookup paths. -/
theorem c8_witness :
    resolveJidToE164R envT none optsC8 = (none, false)
      ∧ resolveJidToE164R envT (some "") optsC8 = (none, false)
      ∧ ("g@g.us" ≠ "" ∧ jidToE164 envT "g@g.us" (baseOf optsC8) = none
          ∧ hasLidSuffix "g@g.us" = false
          ∧ resolveJidToE164R envT (some "g@g.us") optsC8 = (none, false))
      ∧ ("5@lid" ≠ "" ∧ jidToE164 envT "5@lid" (baseOf optsC8c) = none
          ∧ hasLidSuffix "5@lid" = true ∧ optsC8c.bind (·.lidLookup) = none
          ∧ resolveJidToE164R envT (some "5@lid") optsC8c = (none, false)) :=
  ⟨(c8_no_lookup_paths envT optsC8).1,
    (c8_no_lookup_paths envT optsC8).2.1,
    ⟨by decide, by decide, by decide,
      (c8_no_lookup_paths envT optsC8).2.2.1 "g@g.us" (by decide) (by decide) (by decide)⟩,
    ⟨by decide, by decide, by decide, rfl,
      (c8_no_lookup_paths envT optsC8c).2.2.2 "5@lid" (by decide) (by decide) (by decide) rfl⟩⟩

/-- Claim C6: round-trip — for a phone-number string `p` with no `@`, no
platform prefix, no surrounding whitespace, accepted by the external
normalizer with an E.164-shaped canonical form (`+` followed by a non-empty
digit run), decoding `toWhatsappJid env p` with `jidToE164` recovers exactly
`normalizeE164(p)`. -/
theorem c6_round_trip (env : Env) (opts : Option JidToE164Options) (p e : String)
    (ds : List Char)
    (hat : p.data.contains '@' = false)
    (hpfx : waPfx.isPrefixOf p.data = false)
    (htrim : trimChars p.data = p.data)
    (hnorm : env.norm p = some e)
    (hes : e.data = '+' :: ds) (hds : ds ≠ []) (hdig : ∀ c ∈ ds, c.isDigit = true) :
    (toWhatsappJid env p).bind (fun jid => jidToE164 env jid opts) = env.norm p := by
  have hstrip : stripWA p.data = p.data := by simp [stripWA, hpfx]
  have h1 : toWhatsappJid env p
      = some (String.mk (e.data.filter Char.isDigit) ++ "@s.whatsapp.net") := by
    simp only [toWhatsappJid, hstrip, htrim, hat, strMk_data, hnorm, Option.map_some]
    simp
  have hfil : e.data.filter Char.isDigit = ds := by
    have hself : ds.filter Char.isDigit = ds :=
      List.filter_eq_self.mpr (by intro a ha; exact hdig a ha)
    rw [hes]
    simp [List.filter_cons, hself]
  have hjid : String.mk ds ++ "@s.whatsapp.net" = String.mk (ds ++ "@s.whatsapp.net".data) := by
    apply strExt
    rw [strData_append]
  have hm := jidMatch_no_dev directSufs ds "@s.whatsapp.net".data hds hdig
    '@' "s.whatsapp.net".data rfl (by decide) (by decide) (by decide)
  have he : ("+" ++ String.mk ds) = e := by
    apply strExt
    rw [strData_append, hes]
    rfl
  calc (toWhatsappJid env p).bind (fun jid => jidToE164 env jid opts)
      = jidToE164 env (String.mk ds ++ "@s.whatsapp.net") opts := by
        rw [h1, hfil]
        rfl
    _ = some ("+" ++ String.mk ds) := by
        rw [hjid]
        simp only [jidToE164, hm]
    _ = some e := by rw [he]
    _ = env.norm p := hnorm.symm

/-- Environment whose normalizer accepts `"1555"` with canonical form `"+1555"`. -/
def envC6 : Env :=
  { fs := fun _ => none
    norm := fun s => if s = "1555" then some "+1555" else none
    resolveUserPath := id
    oauthDir := none
    configDir := "cfg" }

/-- Witness for `c6_round_trip` at concrete inputs. -/
theorem c6_witness :
    (("1555" : String).data.contains '@' = false
      ∧ waPfx.isPrefixOf ("1555" : String).data = false
      ∧ trimChars ("1555" : String).data = ("1555" : String).data
      ∧ envC6.norm "1555" = some "+1555"
      ∧ ("+1555" : String).data = '+' :: ("1555" : String).data
      ∧ ("1555" : String).data ≠ []
      ∧ (∀ c ∈ ("1555" : String).data, c.isDigit = true))
      ∧ (toWhatsappJid envC6 "1555").bind (fun jid => jidToE164 envC6 jid none)
          = envC6.norm "1555" :=
  ⟨⟨by decide, by decide, by decide, by decide, by decide, by decide, by decide⟩,
    c6_round_trip envC6 none "1555" "+1555" ("1555" : String).data
      (by decide) (by decide) (by decide) (by decide) (by decide) (by decide) (by decide)⟩

theorem isPrefixOf_self_append (a l : List Char) : a.isPrefixOf (a ++ l) = true := by
  induction a with
  | nil => simp
  | cons c cs ih => simp [List.isPrefixOf, ih]

theorem stripWA_prepend (l : List Char) : stripWA (waPfx ++ l) = l := by
  rw [stripWA, if_pos]
  · exact List.drop_left waPfx l
  · exact isPrefixOf_self_append waPfx l

theorem dropWhile_space_app (w l : List Char) (hw : ∀ c ∈ w, isJsSpace c = true) :
    (w ++ l).dropWhile isJsSpace = l.dropWhile isJsSpace := by
  induction w with
  | nil => rfl
  | cons c cs ih =>
    have hc : isJsSpace c = true := hw c (List.mem_cons_self _ _)
    simp only [List.cons_append, List.dropWhile_cons, hc, if_true]
    exact ih fun x hx => hw x (List.mem_cons_of_mem _ hx)

theorem dropWhile_app_of_ne (p : Char → Bool) (l w : List Char)
    (h : l.dropWhile p ≠ []) :
    (l ++ w).dropWhile p = l.dropWhile p ++ w := by
  induction l with
  | nil => exact absurd rfl h
  | cons c cs ih =>
    cases hc : p c with
    | true =>
      have h' : cs.dropWhile p ≠ [] := by
        intro hcon
        apply h
        simp [List.dropWhile_cons, hc, hcon]
      simp only [List.cons_append, List.dropWhile_cons, hc, if_true]
      exact ih h'
    | false =>
      simp [List.dropWhile_cons, hc]

theorem trimChars_space_append (w l : List Char) (hw : ∀ c ∈ w, isJsSpace c = true) :
    trimChars (w ++ l) = trimChars l := by
  rw [trimChars, trimChars, dropWhile_space_app w l hw]

theorem trimChars_append_space (l w : List Char) (hw : ∀ c ∈ w, isJsSpace c = true) :
    trimChars (l ++ w) = trimChars l := by
  by_cases hl : l.dropWhile isJsSpace = []
  · have hall : ∀ c ∈ l, isJsSpace c = true := by
      intro c hc
      exact List.dropWhile_eq_nil_iff.mp hl c hc
    have h1 : (l ++ w).dropWhile isJsSpace = [] := by
      rw [List.dropWhile_eq_nil_iff]
      intro c hc
      rcases List.mem_append.mp hc with h | h
      · exact hall c h
      · exact hw c h
    rw [trimChars, trimChars, h1, hl]
  · rw [trimChars, trimChars, dropWhile_app_of_ne _ l w hl, List.reverse_append,
      dropWhile_space_app]
    intro c hc
    exact hw c (List.mem_reverse.mp hc)

/-- Claim C9, counterexample to the claim as stated: `" whatsapp:x@y"` and
`"x@y"` differ only in a `whatsapp:` prefix and surrounding whitespace, yet
`toWhatsappJid` returns different results — the prefix is stripped before
trimming, so whitespace in front of the prefix defeats the strip and the
prefix survives into the output. -/
theorem c9_counterexample :
    toWhatsappJid envT " whatsapp:x@y" = some "whatsapp:x@y"
      ∧ toWhatsappJid envT "x@y" = some "x@y"
      ∧ toWhatsappJid envT " whatsapp:x@y" ≠ toWhatsappJid envT "x@y" :=
  ⟨by decide, by decide, by decide⟩

/-- Claim C9 (amended): `toWhatsappJid` strips a leading `whatsapp:` prefix
first and then trims whitespace; hence (i) prepending the prefix directly at
the start of a non-prefixed input does not change the result, (ii) adding
surrounding whitespace around a non-prefixed input (such that the whole
input still does not start with the prefix) does not change the result —
but whitespace placed before the prefix is not covered, see
`c9_counterexample` — and (iii) `toJid("+1 (555) 123-4567")` returns
`"15551234567@s.whatsapp.net"` whenever the external normalizer maps the
input to `"+15551234567"`. -/
theorem c9_prefix_whitespace_invariance (env : Env) :
    (∀ s : String, waPfx.isPrefixOf s.data = false →
        toWhatsappJid env ("whatsapp:" ++ s) = toWhatsappJid env s)
      ∧ (∀ s w w' : String,
          (∀ c ∈ w.data, isJsSpace c = true) → (∀ c ∈ w'.data, isJsSpace c = true) →
          waPfx.isPrefixOf (w ++ s ++ w').data = false →
          waPfx.isPrefixOf s.data = false →
          toWhatsappJid env (w ++ s ++ w') = toWhatsappJid env s)
      ∧ (env.norm "+1 (555) 123-4567" = some "+15551234567" →
          toWhatsappJid env "+1 (555) 123-4567" = some "15551234567@s.whatsapp.net") := by
  refine ⟨?_, ?_, ?_⟩
  · intro s hs
    have hd : ("whatsapp:" ++ s).data = waPfx ++ s.data := by
      rw [strData_append]
      rfl
    have hstr : stripWA s.data = s.data := by
      simp only [stripWA, hs, Bool.false_eq_true, if_false]
    simp only [toWhatsappJid, hd, stripWA_prepend, hstr]
  · intro s w w' hw hw' hp hps
    have hd : (w ++ s ++ w').data = w.data ++ s.data ++ w'.data := by
      rw [strData_append, strData_append]
    rw [hd] at hp
    have hstr1 : stripWA (w.data ++ s.data ++ w'.data) = w.data ++ s.data ++ w'.data := by
      simp only [stripWA, hp, Bool.false_eq_true, if_false]
    have hstr2 : stripWA s.data = s.data := by
      simp only [stripWA, hps, Bool.false_eq_true, if_false]
    have htr : trimChars (w.data ++ s.data ++ w'.data) = trimChars s.data := by
      rw [trimChars_append_space _ w'.data hw', trimChars_space_append w.data _ hw]
    simp only [toWhatsappJid, hd, hstr1, htr, hstr2]
  · intro hc
    have h1 : trimChars (stripWA ("+1 (555) 123-4567" : String).data)
        = ("+1 (555) 123-4567" : String).data := by decide
    have h2 : (("+1 (555) 123-4567" : String).data).contains '@' = false := by decide
    simp only [toWhatsappJid, h1, h2, strMk_data, hc, Option.map_some]
    decide

/-- Environment whose normalizer accepts the spec's concrete example. -/
def envC9 : Env :=
  { fs := fun _ => none
    norm := fun s => if s = "+1 (555) 123-4567" then some "+15551234567" else none
    resolveUserPath := id
    oauthDir := none
    configDir := "cfg" }

/-- Witness for `c9_prefix_whitespace_invariance` at concrete inputs. -/
theorem c9_witness :
    (waPfx.isPrefixOf ("x@y" : String).data = false
      ∧ toWhatsappJid envC9 ("whatsapp:" ++ "x@y") = toWhatsappJid envC9 "x@y")
      ∧ ((∀ c ∈ (" " : String).data, isJsSpace c = true)
        ∧ waPfx.isPrefixOf ((" " ++ "x@y" ++ " " : String)).data = false
        ∧ toWhatsappJid envC9 (" " ++ "x@y" ++ " ") = toWhatsappJid envC9 "x@y")
      ∧ (envC9.norm "+1 (555) 123-4567" = some "+15551234567"
        ∧ toWhatsappJid envC9 "+1 (555) 123-4567" = some "15551234567@s.whatsapp.net") :=
  ⟨⟨by decide, (c9_prefix_whitespace_invariance envC9).1 "x@y" (by decide)⟩,
    ⟨by decide, by decide,
      (c9_prefix_whitespace_invariance envC9).2.1 "x@y" " " " " (by decide) (by decide)
        (by decide) (by decide)⟩,
    ⟨by decide, (c9_prefix_whitespace_invariance envC9).2.2 (by decide)⟩⟩
